import Mathlib

/-!
Verification development for the PGN teaching-platform backend: an Express
server that proxies Cloudinary searches for PGN files keyed by a "level"
category, with a 12-hour NodeCache layer, stale-cache fallback on upstream
failure, an admin clear-cache endpoint and a background prefetch endpoint.

The definitions below are a shallow embedding of the server source
(the enhanced server in the repository, lines 53-367 of the concatenated
source file): the classify-and-sort step, the cache store, and the three
cache-relevant request handlers.  JavaScript strings are modelled as Lean
strings, `Date.now()` instants as natural numbers (milliseconds), and the
asynchronous upstream call as an explicit outcome parameter.
-/

namespace PgnBackend

/-- An upstream asset descriptor as returned by the Cloudinary search API:
a fully qualified public id (which may contain path segments) and a secure
URL. -/
structure Resource where
  public_id : String
  secure_url : String
deriving Repr, DecidableEq

/-- A classified file record as built by the handlers:
an object with url, filename and displayName fields. -/
structure FileInfo where
  url : String
  filename : String
  displayName : String
deriving Repr, DecidableEq

/-- Model of JavaScript `s.split(sep)` for a one-character separator,
working over the character list.  It always returns a nonempty list of
groups; splitting the empty string yields one empty group, and separators
at the ends yield empty groups, exactly as in JavaScript. -/
def splitOnChar (sep : Char) : List Char → List (List Char)
  | [] => [[]]
  | c :: cs =>
    let r := splitOnChar sep cs
    if c = sep then [] :: r
    else
      match r with
      | [] => [[c]]
      | g :: gs => (c :: g) :: gs

/-- JavaScript `s.split(sep)` returning Lean strings. -/
def jsSplit (sep : Char) (s : String) : List String :=
  (splitOnChar sep s.toList).map List.asString

/-- Display-name extraction from the handler:
`public_id.split('/')` and then the last element of the parts array. -/
def displayNameOf (publicId : String) : String :=
  (jsSplit '/' publicId).getLastD ""

/-- The per-file record the handler builds from one upstream descriptor:
url from `secure_url`, filename from `public_id`, displayName as the last
path segment of `public_id`. -/
def toFileInfo (f : Resource) : FileInfo :=
  ⟨f.secure_url, f.public_id, displayNameOf f.public_id⟩

/-- The classification predicate `/^\d/.test(filename)`: the first character
of the display name is a decimal digit (false on the empty string). -/
def startsWithDigit (s : String) : Bool :=
  match s.toList with
  | [] => false
  | c :: _ => c.isDigit

/-- The numeric sort key `parseInt(displayName.match(/^\d+/), 10) || 0`:
the maximal leading run of decimal digits parsed as a base-10 natural
number, and 0 when there is no leading digit. -/
def leadingNum (s : String) : Nat :=
  (s.toList.takeWhile Char.isDigit).foldl (fun acc c => 10 * acc + (c.toNat - 48)) 0

/-- The comparator of the numeric subgroup sort: `numA - numB`. -/
def numCompare (a b : FileInfo) : Int :=
  (leadingNum a.displayName : Int) - (leadingNum b.displayName : Int)

/-- Three-way comparison of character lists, the model of the string
comparison performed by `localeCompare`: lexicographic comparison of the
code points.  On the alphanumeric-and-underscore display names in scope
this coincides with the default locale collation. -/
def cmpChars : List Char → List Char → Int
  | [], [] => 0
  | [], _ :: _ => -1
  | _ :: _, [] => 1
  | a :: as, b :: bs =>
    if a.toNat < b.toNat then -1
    else if b.toNat < a.toNat then 1
    else cmpChars as bs

/-- Model of `a.localeCompare(b)` on strings. -/
def localeCompare (a b : String) : Int :=
  cmpChars a.toList b.toList

/-- The comparator of the alphabetic subgroup sort:
`a.displayName.localeCompare(b.displayName)`. -/
def alphaCompare (a b : FileInfo) : Int :=
  localeCompare a.displayName b.displayName

/-- The order realised by `numberFiles.sort((a, b) => numA - numB)`:
a may be placed before b exactly when the comparator is nonpositive. -/
def numLe (a b : FileInfo) : Prop :=
  numCompare a b ≤ 0

instance : DecidableRel numLe :=
  fun a b => inferInstanceAs (Decidable (numCompare a b ≤ 0))

/-- The order realised by
`letterFiles.sort((a, b) => a.displayName.localeCompare(b.displayName))`. -/
def alphaLe (a b : FileInfo) : Prop :=
  alphaCompare a b ≤ 0

instance : DecidableRel alphaLe :=
  fun a b => inferInstanceAs (Decidable (alphaCompare a b ≤ 0))

/-- The classify-and-sort step shared by the pgn-files handler and the
prefetch background task: build the file records, partition them into
number-leading and other files preserving input order (the forEach push
into numberFiles and letterFiles), sort the numeric group by leading
number and the other group by locale comparison of display names, and
concatenate numeric-first.  JavaScript Array.prototype.sort is a stable
sort, and stable sorting has a unique result for a fixed order, so it is
modelled by insertion sort with the corresponding nonpositive-comparator
order. -/
def classifyFiles (resources : List Resource) : List FileInfo :=
  let infos := resources.map toFileInfo
  let numberFiles := infos.filter (fun f => startsWithDigit f.displayName)
  let letterFiles := infos.filter (fun f => !startsWithDigit f.displayName)
  numberFiles.insertionSort numLe ++ letterFiles.insertionSort alphaLe

/-- The numeric subgroup before sorting: the number-leading file records in
input order. -/
def numGroup (rs : List Resource) : List FileInfo :=
  (rs.map toFileInfo).filter (fun f => startsWithDigit f.displayName)

/-- The alphabetic subgroup before sorting: the remaining file records in
input order. -/
def alphaGroup (rs : List Resource) : List FileInfo :=
  (rs.map toFileInfo).filter (fun f => !startsWithDigit f.displayName)

/-- Reinterpretation of an output record as an upstream descriptor, for
feeding the classifier its own output: the filename field is the full
public id and the url field the secure URL. -/
def FileInfo.toResource (f : FileInfo) : Resource :=
  ⟨f.filename, f.url⟩

/-- Modelled from the spec: the Cache Store of section 4.2 is realised by
the node-cache package, whose implementation is not part of this
repository; only its configuration appears in the server source
(stdTTL 43200 seconds, i.e. 12 hours).  An entry stores the classified
list together with its expiry instant (set time plus TTL); reads treat an
entry past its expiry as absent. -/
structure CacheEntry where
  value : List FileInfo
  expireAt : Nat
deriving Repr, DecidableEq

/-- The configured TTL, 43200 seconds, in milliseconds. -/
def ttlMs : Nat := 43200 * 1000

/-- Modelled from the spec: the cache state, an association of category
keys to entries with at most one live entry per key. -/
abbrev Cache := List (String × CacheEntry)

/-- Raw association lookup of the entry stored under a key. -/
def Cache.lookupEntry : Cache → String → Option CacheEntry
  | [], _ => none
  | e :: rest, k => if e.1 = k then some e.2 else Cache.lookupEntry rest k

/-- Modelled from the spec: `get(key)` returns the stored list while the
entry is within its TTL and absent otherwise.  The expiry instant itself
still reads as present, matching expiry strictly after 12 hours. -/
def Cache.get (c : Cache) (k : String) (now : Nat) : Option (List FileInfo) :=
  match c.lookupEntry k with
  | some e => if now ≤ e.expireAt then some e.value else none
  | none => none

/-- Modelled from the spec: `set(key, list)` stores the list and resets the
TTL countdown for that key, replacing any previous entry. -/
def Cache.set (c : Cache) (k : String) (v : List FileInfo) (now : Nat) : Cache :=
  (k, ⟨v, now + ttlMs⟩) :: c.filter (fun e => e.1 != k)

/-- Modelled from the spec: `del(key)` removes the entry of one key. -/
def Cache.del (c : Cache) (k : String) : Cache :=
  c.filter (fun e => e.1 != k)

/-- Modelled from the spec: `flushAll()` removes every entry. -/
def Cache.flushAll : Cache := []

/-- Modelled from the spec: `has(key)` is the boolean existence check with
the same TTL behaviour as `get`. -/
def Cache.has (c : Cache) (k : String) (now : Nat) : Bool :=
  (c.get k now).isSome

/-- Outcome of the raced upstream Cloudinary search: a rejected promise
(network failure or the 8000 ms timeout firing first), a resolved value
whose resources field is missing or not an array, or a resolved array of
descriptors. -/
inductive Upstream where
  | failure
  | malformed
  | ok (resources : List Resource)
deriving Repr, DecidableEq

/-- The observable outcome of one GET /api/pgn-files request. -/
inductive FetchOutcome where
  | missingLevel
  | invalidLevel
  | cached (files : List FileInfo)
  | fresh (files : List FileInfo)
  | stale (files : List FileInfo)
  | upstreamError
deriving Repr, DecidableEq

/-- The HTTP status of each outcome; the stale case is the 200 response
carrying the X-Served-From-Stale-Cache marker header. -/
def FetchOutcome.status : FetchOutcome → Nat
  | missingLevel => 400
  | invalidLevel => 400
  | cached _ => 200
  | fresh _ => 200
  | stale _ => 200
  | upstreamError => 500

/-- Whether a character is admitted by the charset class of the validation
regex: ASCII letters, decimal digits and underscore. -/
def isLevelChar (c : Char) : Bool :=
  c.isAlpha || c.isDigit || c == '_'

/-- The security check of the pgn-files handler, the full-string regex
requiring one or more characters of the allowed charset. -/
def levelRegexOk (s : String) : Bool :=
  !(s == "") && s.toList.all isLevelChar

/-- The GET /api/pgn-files handler.  The level query parameter is an
optional string (absent or present).  The cache is read at instant t1; the
upstream call settles at instant t2; mid is the transformation other
in-flight operations apply to the cache while the upstream call is pending
(the identity when nothing runs concurrently).  Returns the response
outcome together with the cache state after the request. -/
def fetchCategory (level : Option String) (c : Cache) (t1 : Nat)
    (up : Upstream) (mid : Cache → Cache) (t2 : Nat) : FetchOutcome × Cache :=
  match level with
  | none => (FetchOutcome.missingLevel, c)
  | some lv =>
    if lv = "" then (FetchOutcome.missingLevel, c)
    else if !levelRegexOk lv then (FetchOutcome.invalidLevel, c)
    else
      match c.get lv t1 with
      | some files => (FetchOutcome.cached files, c)
      | none =>
        let c2 := mid c
        match up with
        | Upstream.ok resources =>
          let files := classifyFiles resources
          (FetchOutcome.fresh files, c2.set lv files t2)
        | _ =>
          match c2.get lv t2 with
          | some files => (FetchOutcome.stale files, c2)
          | none => (FetchOutcome.upstreamError, c2)

/-- The search expression both handlers interpolate the level into:
folder:LEVEL AND format:pgn, with the level embedded verbatim. -/
def searchExpression (level : String) : String :=
  "folder:" ++ level ++ " AND format:pgn"

/-- The upstream search expressions one GET /api/pgn-files request issues:
none when validation fails or the cache hits, and exactly one otherwise. -/
def fetchQueries (level : Option String) (c : Cache) (t1 : Nat) : List String :=
  match level with
  | none => []
  | some lv =>
    if lv = "" then []
    else if !levelRegexOk lv then []
    else
      match c.get lv t1 with
      | some _ => []
      | none => [searchExpression lv]

/-- The observable outcome of one POST /api/clear-cache request. -/
inductive ClearOutcome where
  | unauthorized
  | clearedLevel (lv : String)
  | clearedAll
deriving Repr, DecidableEq

/-- The POST /api/clear-cache handler: a strict-equality check of the
request apiKey against the ADMIN_API_KEY environment value (either side
may be absent), then JavaScript truthiness of the level field decides
between a single-key delete and a full flush. -/
def clearCache (level : Option String) (apiKey : Option String)
    (adminKey : Option String) (c : Cache) : ClearOutcome × Cache :=
  if apiKey = adminKey then
    match level with
    | some lv =>
      if lv = "" then (ClearOutcome.clearedAll, Cache.flushAll)
      else (ClearOutcome.clearedLevel lv, c.del lv)
    | none => (ClearOutcome.clearedAll, Cache.flushAll)
  else (ClearOutcome.unauthorized, c)

/-- The immediate response of one GET /api/prefetch request. -/
inductive PrefetchOutcome where
  | missingLevels
  | ack (levelsToPrefetch : List String)
deriving Repr, DecidableEq

/-- One spawned prefetch callback for a level: skip when the has check
against the spawn-time cache state c0 finds the key (those checks run
synchronously, before any callback reaches its await), otherwise fetch
and, only on success, classify and store; a failed or malformed fetch
leaves the accumulated cache untouched and is merely logged. -/
def prefetchStep (c0 : Cache) (ups : String → Upstream) (now : Nat)
    (c : Cache) (lv : String) : Cache :=
  if c0.has lv now then c
  else
    match ups lv with
    | Upstream.ok resources => c.set lv (classifyFiles resources) now
    | _ => c

/-- The background phase of the prefetch handler: the effect of all
spawned callbacks on the cache, one per requested level, each given its
own upstream outcome by ups. -/
def prefetchBackground (toFetch : List String) (c0 : Cache)
    (ups : String → Upstream) (now : Nat) : Cache :=
  toFetch.foldl (prefetchStep c0 ups now) c0

/-- The GET /api/prefetch handler: requires a truthy levels parameter,
splits it on commas, truncates to the first five keys, immediately
responds with the acknowledgment listing those keys, and then runs the
background phase. -/
def prefetchHandler (levels : Option String) (c : Cache)
    (ups : String → Upstream) (now : Nat) : PrefetchOutcome × Cache :=
  match levels with
  | none => (PrefetchOutcome.missingLevels, c)
  | some s =>
    if s = "" then (PrefetchOutcome.missingLevels, c)
    else
      let toFetch := (jsSplit ',' s).take 5
      (PrefetchOutcome.ack toFetch, prefetchBackground toFetch c ups now)

/-- The upstream search expressions one prefetch request issues: one per
non-cached key among the first five, with the key embedded verbatim and
no charset validation. -/
def prefetchQueries (levels : Option String) (c : Cache) (now : Nat) : List String :=
  match levels with
  | none => []
  | some s =>
    if s = "" then []
    else
      (((jsSplit ',' s).take 5).filter (fun lv => !(c.has lv now))).map searchExpression

/-- The descriptor list of the end-to-end example of the spec. -/
def exampleResources : List Resource :=
  [⟨"folderA/10_game", "u1"⟩, ⟨"folderA/2_game", "u2"⟩,
   ⟨"folderA/bishop", "u3"⟩, ⟨"folderA/apple", "u4"⟩]

/-- A sample cached file record used in concrete instantiations. -/
def sampleFile : FileInfo :=
  ⟨"u", "beginner/1_game", "1_game"⟩


theorem Cache.lookupEntry_filterOut_self (c : Cache) (k : String) :
    Cache.lookupEntry (c.filter (fun e => e.1 != k)) k = none := by
  induction c with
  | nil => rfl
  | cons e rest ih =>
    rw [List.filter_cons]
    by_cases he : e.1 = k
    · rw [if_neg (by simp [he])]
      exact ih
    · rw [if_pos (by simp [he])]
      simp only [Cache.lookupEntry, if_neg he]
      exact ih

theorem Cache.lookupEntry_filterOut_ne (c : Cache) (k k2 : String) (h : ¬ k2 = k) :
    Cache.lookupEntry (c.filter (fun e => e.1 != k)) k2 = Cache.lookupEntry c k2 := by
  induction c with
  | nil => rfl
  | cons e rest ih =>
    rw [List.filter_cons]
    by_cases he : e.1 = k
    · have hne : ¬ e.1 = k2 := by
        intro hk
        exact h (by rw [← hk, he])
      rw [if_neg (by simp [he])]
      simp only [Cache.lookupEntry, if_neg hne]
      exact ih
    · rw [if_pos (by simp [he])]
      by_cases h2 : e.1 = k2
      · simp only [Cache.lookupEntry, if_pos h2]
      · simp only [Cache.lookupEntry, if_neg h2]
        exact ih

theorem Cache.lookupEntry_set_self (c : Cache) (k : String) (v : List FileInfo) (t : Nat) :
    Cache.lookupEntry (c.set k v t) k = some ⟨v, t + ttlMs⟩ := by
  simp [Cache.set, Cache.lookupEntry]

theorem Cache.lookupEntry_set_ne (c : Cache) (k k2 : String) (v : List FileInfo) (t : Nat)
    (h : ¬ k2 = k) :
    Cache.lookupEntry (c.set k v t) k2 = Cache.lookupEntry c k2 := by
  have hk : ¬ k = k2 := fun hh => h hh.symm
  simp only [Cache.set, Cache.lookupEntry, if_neg hk]
  exact Cache.lookupEntry_filterOut_ne c k k2 h

theorem Cache.get_lookup_some {c : Cache} {k : String} {e : CacheEntry}
    (hl : Cache.lookupEntry c k = some e) (now : Nat) :
    Cache.get c k now = if now ≤ e.expireAt then some e.value else none := by
  unfold Cache.get
  rw [hl]

theorem Cache.get_lookup_none {c : Cache} {k : String}
    (hl : Cache.lookupEntry c k = none) (now : Nat) :
    Cache.get c k now = none := by
  unfold Cache.get
  rw [hl]

theorem Cache.get_set_self (c : Cache) (k : String) (v : List FileInfo) (t now : Nat) :
    Cache.get (c.set k v t) k now = if now ≤ t + ttlMs then some v else none :=
  Cache.get_lookup_some (Cache.lookupEntry_set_self c k v t) now

theorem Cache.get_set_ne (c : Cache) (k k2 : String) (v : List FileInfo) (t now : Nat)
    (h : ¬ k2 = k) :
    Cache.get (c.set k v t) k2 now = Cache.get c k2 now := by
  unfold Cache.get
  rw [Cache.lookupEntry_set_ne c k k2 v t h]

theorem Cache.get_del_self (c : Cache) (k : String) (now : Nat) :
    Cache.get (c.del k) k now = none :=
  Cache.get_lookup_none (Cache.lookupEntry_filterOut_self c k) now

theorem Cache.get_none_mono {c : Cache} {k : String} {t1 t2 : Nat}
    (ht : t1 ≤ t2) (h : Cache.get c k t1 = none) : Cache.get c k t2 = none := by
  cases hl : Cache.lookupEntry c k with
  | none => exact Cache.get_lookup_none hl t2
  | some e =>
    rw [Cache.get_lookup_some hl t1] at h
    rw [Cache.get_lookup_some hl t2]
    by_cases hle : t1 ≤ e.expireAt
    · rw [if_pos hle] at h
      cases h
    · rw [if_neg (by omega)]

theorem fetchCategory_none (c : Cache) (t1 : Nat) (up : Upstream)
    (mid : Cache → Cache) (t2 : Nat) :
    fetchCategory none c t1 up mid t2 = (FetchOutcome.missingLevel, c) := rfl

theorem fetchCategory_invalid {s : String} (hne : ¬ s = "")
    (hreg : levelRegexOk s = false) (c : Cache) (t1 : Nat) (up : Upstream)
    (mid : Cache → Cache) (t2 : Nat) :
    fetchCategory (some s) c t1 up mid t2 = (FetchOutcome.invalidLevel, c) := by
  simp only [fetchCategory, if_neg hne, hreg]
  rfl

theorem fetchCategory_hit {lv : String} (hne : ¬ lv = "")
    (hreg : levelRegexOk lv = true) {c : Cache} {t1 : Nat} {files : List FileInfo}
    (hget : Cache.get c lv t1 = some files) (up : Upstream) (mid : Cache → Cache)
    (t2 : Nat) :
    fetchCategory (some lv) c t1 up mid t2 = (FetchOutcome.cached files, c) := by
  simp only [fetchCategory, if_neg hne, hreg, hget]
  rfl

theorem fetchCategory_ok {lv : String} (hne : ¬ lv = "")
    (hreg : levelRegexOk lv = true) {c : Cache} {t1 : Nat}
    (hget : Cache.get c lv t1 = none) (rs : List Resource) (mid : Cache → Cache)
    (t2 : Nat) :
    fetchCategory (some lv) c t1 (Upstream.ok rs) mid t2
      = (FetchOutcome.fresh (classifyFiles rs),
         Cache.set (mid c) lv (classifyFiles rs) t2) := by
  simp only [fetchCategory, if_neg hne, hreg, hget]
  rfl

theorem fetchCategory_fail_stale {lv : String} (hne : ¬ lv = "")
    (hreg : levelRegexOk lv = true) {c : Cache} {t1 : Nat}
    (hget : Cache.get c lv t1 = none) {up : Upstream}
    (hup : up = Upstream.failure ∨ up = Upstream.malformed) {mid : Cache → Cache}
    {t2 : Nat} {v : List FileInfo} (hget2 : Cache.get (mid c) lv t2 = some v) :
    fetchCategory (some lv) c t1 up mid t2 = (FetchOutcome.stale v, mid c) := by
  rcases hup with h | h <;> subst h <;>
    · simp only [fetchCategory, if_neg hne, hreg, hget, hget2]
      rfl

theorem fetchCategory_fail_error {lv : String} (hne : ¬ lv = "")
    (hreg : levelRegexOk lv = true) {c : Cache} {t1 : Nat}
    (hget : Cache.get c lv t1 = none) {up : Upstream}
    (hup : up = Upstream.failure ∨ up = Upstream.malformed) {mid : Cache → Cache}
    {t2 : Nat} (hget2 : Cache.get (mid c) lv t2 = none) :
    fetchCategory (some lv) c t1 up mid t2 = (FetchOutcome.upstreamError, mid c) := by
  rcases hup with h | h <;> subst h <;>
    · simp only [fetchCategory, if_neg hne, hreg, hget, hget2]
      rfl

/-- C3: for every request whose level key is absent, or contains a
character outside letters, digits and underscore, the handler answers with
status 400, leaves the cache unchanged, issues no upstream query, and its
outcome is independent of the upstream behaviour. -/
theorem C3_validation_rejects :
    (∀ (c : Cache) (t1 : Nat) (up : Upstream) (mid : Cache → Cache) (t2 : Nat),
        fetchCategory none c t1 up mid t2 = (FetchOutcome.missingLevel, c) ∧
        (fetchCategory none c t1 up mid t2).1.status = 400 ∧
        fetchQueries none c t1 = []) ∧
    (∀ s : String, (∃ ch ∈ s.toList, isLevelChar ch = false) →
      ∀ (c : Cache) (t1 : Nat) (up : Upstream) (mid : Cache → Cache) (t2 : Nat)
        (up2 : Upstream) (mid2 : Cache → Cache) (t3 : Nat),
        (fetchCategory (some s) c t1 up mid t2).1.status = 400 ∧
        (fetchCategory (some s) c t1 up mid t2).2 = c ∧
        fetchQueries (some s) c t1 = [] ∧
        fetchCategory (some s) c t1 up mid t2
          = fetchCategory (some s) c t1 up2 mid2 t3) := by
  constructor
  · intro c t1 up mid t2
    exact ⟨rfl, rfl, rfl⟩
  · intro s hs c t1 up mid t2 up2 mid2 t3
    obtain ⟨ch, hmem, hbad⟩ := hs
    have hne : ¬ s = "" := by
      intro h
      subst h
      exact (List.not_mem_nil ch) hmem
    have hall : s.toList.all isLevelChar = false := by
      cases hA : s.toList.all isLevelChar with
      | false => rfl
      | true =>
        rw [List.all_eq_true] at hA
        rw [hA ch hmem] at hbad
        cases hbad
    have hreg : levelRegexOk s = false := by
      unfold levelRegexOk
      rw [hall, Bool.and_false]
    rw [fetchCategory_invalid hne hreg, fetchCategory_invalid hne hreg]
    refine ⟨rfl, rfl, ?_, rfl⟩
    simp only [fetchQueries, if_neg hne, hreg]
    rfl

/-- Witness for C3 at the key of the validation scenario of the spec. -/
theorem C3_validation_rejects_witness :
    (fetchCategory (some "bad key!") [] 0 Upstream.failure id 0).1.status = 400 ∧
    (fetchCategory (some "bad key!") [] 0 Upstream.failure id 0).2 = [] ∧
    fetchQueries (some "bad key!") [] 0 = [] ∧
    fetchCategory (some "bad key!") [] 0 Upstream.failure id 0
      = fetchCategory (some "bad key!") [] 0 (Upstream.ok []) id 7 :=
  C3_validation_rejects.2 "bad key!" (by decide) [] 0 Upstream.failure id 0
    (Upstream.ok []) id 7

/-- C4: a set followed by a get of the same key returns the stored list;
the entry expires exactly 12 hours after its last set, after which get and
has behave as absent, unless a new set refreshes the entry. -/
theorem C4_cache_roundtrip_ttl (c : Cache) (k : String) (v v2 : List FileInfo) (t : Nat) :
    Cache.get (c.set k v t) k t = some v ∧
    (∀ t2, t2 ≤ t + ttlMs → Cache.get (c.set k v t) k t2 = some v) ∧
    (∀ t2, t + ttlMs < t2 →
        Cache.get (c.set k v t) k t2 = none ∧
        Cache.has (c.set k v t) k t2 = false) ∧
    (∀ t3 t4, t4 ≤ t3 + ttlMs →
        Cache.get ((c.set k v t).set k v2 t3) k t4 = some v2) := by
  refine ⟨?_, ?_, ?_, ?_⟩
  · rw [Cache.get_set_self, if_pos (by omega)]
  · intro t2 h
    rw [Cache.get_set_self, if_pos h]
  · intro t2 h
    constructor
    · rw [Cache.get_set_self, if_neg (by omega)]
    · unfold Cache.has
      rw [Cache.get_set_self, if_neg (by omega)]
      rfl
  · intro t3 t4 h
    rw [Cache.get_set_self, if_pos h]

/-- Witness for C4 at a concrete key, list and instants. -/
theorem C4_cache_roundtrip_ttl_witness :
    Cache.get (Cache.set [] "beginner" [sampleFile] 0) "beginner" 0 = some [sampleFile] ∧
    Cache.get (Cache.set [] "beginner" [sampleFile] 0) "beginner" (ttlMs + 1) = none :=
  ⟨(C4_cache_roundtrip_ttl [] "beginner" [sampleFile] [] 0).1,
   ((C4_cache_roundtrip_ttl [] "beginner" [sampleFile] [] 0).2.2.1 (ttlMs + 1)
      (by omega)).1⟩

/-- C5: a request whose upstream fetch fails leaves the cache exactly as
it was, and a request changes the cache only when its upstream fetch
succeeds, in which case the change is the set of the classified result for
the requested key. -/
theorem C5_failure_cache_frame (level : Option String) (c : Cache) (t1 t2 : Nat)
    (up : Upstream) (hup : up = Upstream.failure ∨ up = Upstream.malformed) :
    (fetchCategory level c t1 up id t2).2 = c ∧
    (∀ up2 : Upstream, (fetchCategory level c t1 up2 id t2).2 ≠ c →
        ∃ rs lv, up2 = Upstream.ok rs ∧ level = some lv ∧
          (fetchCategory level c t1 up2 id t2).2 = c.set lv (classifyFiles rs) t2) := by
  constructor
  · match level with
    | none => rfl
    | some lv =>
      by_cases h0 : lv = ""
      · subst h0
        rfl
      · cases hreg : levelRegexOk lv with
        | false => rw [fetchCategory_invalid h0 hreg]
        | true =>
          cases hget : Cache.get c lv t1 with
          | some files => rw [fetchCategory_hit h0 hreg hget]
          | none =>
            cases hget2 : Cache.get (id c) lv t2 with
            | some v =>
              rw [fetchCategory_fail_stale h0 hreg hget hup hget2]
              rfl
            | none =>
              rw [fetchCategory_fail_error h0 hreg hget hup hget2]
              rfl
  · intro up2 hne2
    match level with
    | none => exact absurd rfl hne2
    | some lv =>
      by_cases h0 : lv = ""
      · subst h0
        exact absurd rfl hne2
      · cases hreg : levelRegexOk lv with
        | false =>
          rw [fetchCategory_invalid h0 hreg] at hne2
          exact absurd rfl hne2
        | true =>
          cases hget : Cache.get c lv t1 with
          | some files =>
            rw [fetchCategory_hit h0 hreg hget] at hne2
            exact absurd rfl hne2
          | none =>
            cases up2 with
            | ok rs =>
              refine ⟨rs, lv, rfl, rfl, ?_⟩
              rw [fetchCategory_ok h0 hreg hget]
              rfl
            | failure =>
              cases hget2 : Cache.get (id c) lv t2 with
              | some v =>
                rw [fetchCategory_fail_stale h0 hreg hget (Or.inl rfl) hget2] at hne2
                exact absurd rfl hne2
              | none =>
                rw [fetchCategory_fail_error h0 hreg hget (Or.inl rfl) hget2] at hne2
                exact absurd rfl hne2
            | malformed =>
              cases hget2 : Cache.get (id c) lv t2 with
              | some v =>
                rw [fetchCategory_fail_stale h0 hreg hget (Or.inr rfl) hget2] at hne2
                exact absurd rfl hne2
              | none =>
                rw [fetchCategory_fail_error h0 hreg hget (Or.inr rfl) hget2] at hne2
                exact absurd rfl hne2

/-- Witness for C5 at a concrete failing request over a populated cache. -/
theorem C5_failure_cache_frame_witness :
    (fetchCategory (some "beginner") [("beginner", ⟨[sampleFile], 7⟩)] 100
        Upstream.failure id 200).2 = [("beginner", ⟨[sampleFile], 7⟩)] :=
  (C5_failure_cache_frame (some "beginner") [("beginner", ⟨[sampleFile], 7⟩)] 100 200
    Upstream.failure (Or.inl rfl)).1

/-- C1 fails as stated: with the cache populated for the key (the get at
instant 0 returns the stored list) and a later request for the same key
suffering an upstream failure, the handler returns the 500 UpstreamError
outcome rather than the previously stored list, because the catch-path
read is the same TTL-checked get that already treated the expired entry as
absent. -/
theorem C1_counterexample :
    Cache.get (Cache.set [] "beginner" [sampleFile] 0) "beginner" 0
      = some [sampleFile] ∧
    (fetchCategory (some "beginner") (Cache.set [] "beginner" [sampleFile] 0)
        (ttlMs + 1) Upstream.failure id (ttlMs + 1)).1
      = FetchOutcome.upstreamError ∧
    (fetchCategory (some "beginner") (Cache.set [] "beginner" [sampleFile] 0)
        (ttlMs + 1) Upstream.failure id (ttlMs + 1)).1.status = 500 := by
  refine ⟨by decide, by decide, by decide⟩

/-- C1 (amended): on upstream failure the handler re-reads the key with
the TTL-checked get against the cache as left by concurrently completed
operations; a value found is returned as the stale-marked 200 response
with the cache otherwise untouched, and an absent read surfaces the 500
UpstreamError; since an expired entry reads as absent and the initial read
already missed, in the absence of concurrent writes the fallback never
fires and the failure always surfaces as UpstreamError. -/
theorem C1_amended_stale_fallback (lv : String) (c : Cache) (t1 t2 : Nat)
    (up : Upstream) (mid : Cache → Cache)
    (hreg : levelRegexOk lv = true)
    (hup : up = Upstream.failure ∨ up = Upstream.malformed)
    (hmiss : Cache.get c lv t1 = none) :
    (∀ v, Cache.get (mid c) lv t2 = some v →
        fetchCategory (some lv) c t1 up mid t2 = (FetchOutcome.stale v, mid c)) ∧
    (Cache.get (mid c) lv t2 = none →
        fetchCategory (some lv) c t1 up mid t2 = (FetchOutcome.upstreamError, mid c) ∧
        (fetchCategory (some lv) c t1 up mid t2).1.status = 500) ∧
    (t1 ≤ t2 →
        (fetchCategory (some lv) c t1 up id t2).1 = FetchOutcome.upstreamError) := by
  have hne : ¬ lv = "" := by
    intro h
    subst h
    simp [levelRegexOk] at hreg
  refine ⟨?_, ?_, ?_⟩
  · intro v hget2
    exact fetchCategory_fail_stale hne hreg hmiss hup hget2
  · intro hget2
    have he := fetchCategory_fail_error hne hreg hmiss hup hget2
    exact ⟨he, by rw [he]; rfl⟩
  · intro ht
    have hget2 : Cache.get (id c) lv t2 = none := Cache.get_none_mono ht hmiss
    rw [fetchCategory_fail_error hne hreg hmiss hup hget2]

/-- Witness for C1 (amended): a concurrent prefetch writes the key while
the failing upstream call is pending, so the fallback read finds a fresh
value and the request is served from it with the stale marker; and the
sequential no-write case surfaces the 500. -/
theorem C1_amended_stale_fallback_witness :
    fetchCategory (some "beginner") [] 0 Upstream.failure
        (fun c => Cache.set c "beginner" [sampleFile] 0) 5
      = (FetchOutcome.stale [sampleFile],
         Cache.set [] "beginner" [sampleFile] 0) ∧
    (fetchCategory (some "beginner") [] 0 Upstream.failure id 5).1
      = FetchOutcome.upstreamError :=
  ⟨(C1_amended_stale_fallback "beginner" [] 0 5 Upstream.failure
      (fun c => Cache.set c "beginner" [sampleFile] 0) (by decide) (Or.inl rfl)
      (by decide)).1 [sampleFile] (by decide),
   (C1_amended_stale_fallback "beginner" [] 0 5 Upstream.failure id (by decide)
      (Or.inl rfl) (by decide)).2.2 (by omega)⟩

/-- C8 fails as stated: with a valid admin key and the level field given
as the empty string, the handler flushes the whole cache, so another key's
entry is removed even though a level was given and it differs from that
key. -/
theorem C8_counterexample :
    Cache.lookupEntry (Cache.set [] "k1" [sampleFile] 0) "k1"
      = some ⟨[sampleFile], ttlMs⟩ ∧
    ¬ ("" : String) = "k1" ∧
    (clearCache (some "") (some "secret") (some "secret")
        (Cache.set [] "k1" [sampleFile] 0)).1 ≠ ClearOutcome.unauthorized ∧
    Cache.lookupEntry
        (clearCache (some "") (some "secret") (some "secret")
          (Cache.set [] "k1" [sampleFile] 0)).2 "k1" = none := by
  refine ⟨by decide, by decide, by decide, by decide⟩

/-- C8 (amended): a non-matching apiKey gives the 401 outcome and leaves
the cache unchanged; a matching apiKey with a nonempty level removes
exactly that key and leaves every other key's entry unchanged; a matching
apiKey with the level absent, or given but empty, removes all entries. -/
theorem C8_amended_clear_cache (level apiKey adminKey : Option String) (c : Cache) :
    (¬ apiKey = adminKey →
        clearCache level apiKey adminKey c = (ClearOutcome.unauthorized, c)) ∧
    (apiKey = adminKey →
      (∀ lv, level = some lv → ¬ lv = "" →
          (clearCache level apiKey adminKey c).1 = ClearOutcome.clearedLevel lv ∧
          Cache.lookupEntry (clearCache level apiKey adminKey c).2 lv = none ∧
          ∀ k2, ¬ k2 = lv →
            Cache.lookupEntry (clearCache level apiKey adminKey c).2 k2
              = Cache.lookupEntry c k2) ∧
      ((level = none ∨ level = some "") →
          (clearCache level apiKey adminKey c).2 = [])) := by
  constructor
  · intro h
    unfold clearCache
    rw [if_neg h]
  · intro h
    constructor
    · intro lv hlv hne
      subst hlv
      unfold clearCache
      rw [if_pos h]
      simp only [if_neg hne]
      refine ⟨?_, Cache.lookupEntry_filterOut_self c lv,
        fun k2 hk2 => Cache.lookupEntry_filterOut_ne c lv k2 hk2⟩
      trivial
    · intro hlv
      rcases hlv with h1 | h1 <;> subst h1 <;>
        · unfold clearCache
          rw [if_pos h]
          rfl

/-- Witness for C8 (amended) over a two-key cache: deleting one key
removes it, keeps the other, and the wrong-key case is refused. -/
theorem C8_amended_clear_cache_witness :
    Cache.lookupEntry
        (clearCache (some "a") (some "s") (some "s")
          (Cache.set (Cache.set [] "a" [sampleFile] 0) "b" [] 0)).2 "a" = none ∧
    Cache.lookupEntry
        (clearCache (some "a") (some "s") (some "s")
          (Cache.set (Cache.set [] "a" [sampleFile] 0) "b" [] 0)).2 "b"
      = Cache.lookupEntry (Cache.set (Cache.set [] "a" [sampleFile] 0) "b" [] 0) "b" ∧
    clearCache (some "a") (some "wrong") (some "s")
        (Cache.set (Cache.set [] "a" [sampleFile] 0) "b" [] 0)
      = (ClearOutcome.unauthorized,
         Cache.set (Cache.set [] "a" [sampleFile] 0) "b" [] 0) :=
  ⟨(((C8_amended_clear_cache (some "a") (some "s") (some "s")
        (Cache.set (Cache.set [] "a" [sampleFile] 0) "b" [] 0)).2 rfl).1 "a" rfl
      (by decide)).2.1,
   (((C8_amended_clear_cache (some "a") (some "s") (some "s")
        (Cache.set (Cache.set [] "a" [sampleFile] 0) "b" [] 0)).2 rfl).1 "a" rfl
      (by decide)).2.2 "b" (by decide),
   (C8_amended_clear_cache (some "a") (some "wrong") (some "s")
        (Cache.set (Cache.set [] "a" [sampleFile] 0) "b" [] 0)).1 (by decide)⟩

/-- C10: the clear-cache authorization is a strict equality test, so with
the admin secret unconfigured a request that also omits apiKey passes the
check and can flush the whole cache or delete a chosen key without any
credential. -/
theorem C10_unconfigured_admin_bypass (c : Cache) (lv : String) (h : ¬ lv = "") :
    clearCache none none none c = (ClearOutcome.clearedAll, []) ∧
    clearCache (some lv) none none c = (ClearOutcome.clearedLevel lv, c.del lv) ∧
    Cache.get (clearCache (some lv) none none c).2 lv 0 = none ∧
    (clearCache none none none c).1 ≠ ClearOutcome.unauthorized := by
  have h2 : clearCache (some lv) none none c = (ClearOutcome.clearedLevel lv, c.del lv) := by
    unfold clearCache
    rw [if_pos rfl]
    simp only [if_neg h]
  refine ⟨rfl, h2, ?_, fun hcon => ClearOutcome.noConfusion hcon⟩
  rw [h2]
  exact Cache.get_del_self c lv 0

/-- Witness for C10 on a populated single-key cache. -/
theorem C10_unconfigured_admin_bypass_witness :
    clearCache none none none (Cache.set [] "beginner" [sampleFile] 0)
      = (ClearOutcome.clearedAll, []) ∧
    Cache.get
        (clearCache (some "beginner") none none
          (Cache.set [] "beginner" [sampleFile] 0)).2 "beginner" 0 = none :=
  ⟨(C10_unconfigured_admin_bypass (Cache.set [] "beginner" [sampleFile] 0) "beginner"
      (by decide)).1,
   (C10_unconfigured_admin_bypass (Cache.set [] "beginner" [sampleFile] 0) "beginner"
      (by decide)).2.2.1⟩

theorem cmpChars_le_trans : ∀ (a b c : List Char),
    cmpChars a b ≤ 0 → cmpChars b c ≤ 0 → cmpChars a c ≤ 0
  | [], b, c, _, _ => by cases c <;> simp [cmpChars]
  | _ :: _, [], _, h1, _ => by simp [cmpChars] at h1
  | _ :: _, _ :: _, [], _, h2 => by simp [cmpChars] at h2
  | x :: xs, y :: ys, z :: zs, h1, h2 => by
    simp only [cmpChars] at h1 h2 ⊢
    split_ifs at h1 h2 ⊢ <;>
      first
        | omega
        | exact cmpChars_le_trans xs ys zs h1 h2

theorem cmpChars_le_total : ∀ (a b : List Char),
    cmpChars a b ≤ 0 ∨ cmpChars b a ≤ 0
  | [], b => by cases b <;> simp [cmpChars]
  | _ :: _, [] => by simp [cmpChars]
  | x :: xs, y :: ys => by
    simp only [cmpChars]
    rcases Nat.lt_trichotomy x.toNat y.toNat with h | h | h
    · left
      rw [if_pos h]
      omega
    · rw [if_neg (show ¬ x.toNat < y.toNat by omega),
        if_neg (show ¬ y.toNat < x.toNat by omega),
        if_neg (show ¬ y.toNat < x.toNat by omega),
        if_neg (show ¬ x.toNat < y.toNat by omega)]
      exact cmpChars_le_total xs ys
    · right
      rw [if_pos h]
      omega

instance : IsTrans FileInfo numLe :=
  ⟨fun a b c h1 h2 => by
    unfold numLe numCompare at h1 h2 ⊢
    omega⟩

instance : IsTotal FileInfo numLe :=
  ⟨fun a b => by
    unfold numLe numCompare
    omega⟩

instance : IsTrans FileInfo alphaLe :=
  ⟨fun x y z h1 h2 => cmpChars_le_trans x.displayName.toList y.displayName.toList
    z.displayName.toList h1 h2⟩

instance : IsTotal FileInfo alphaLe :=
  ⟨fun x y => cmpChars_le_total x.displayName.toList y.displayName.toList⟩

theorem mem_numGroup_digit {rs : List Resource} {f : FileInfo} (h : f ∈ numGroup rs) :
    startsWithDigit f.displayName = true :=
  (List.mem_filter.mp h).2

theorem mem_alphaGroup_not_digit {rs : List Resource} {f : FileInfo}
    (h : f ∈ alphaGroup rs) : startsWithDigit f.displayName = false := by
  have h2 := (List.mem_filter.mp h).2
  simpa using h2

/-- C2: the classifier outputs first all records whose display name starts
with a decimal digit, ordered ascending by the parsed leading number, then
the remaining records ordered by the locale comparison of display names;
each subgroup is a permutation of the corresponding input-order filter;
any subgroup-order-respecting subsequence of the input survives in order
(stability: ties keep input order); and the end-to-end example of the spec
evaluates to the display-name order 2_game, 10_game, apple, bishop. -/
theorem C2_classifier_order :
    (∀ rs : List Resource,
      classifyFiles rs
          = (numGroup rs).insertionSort numLe ++ (alphaGroup rs).insertionSort alphaLe ∧
      (∀ f ∈ (numGroup rs).insertionSort numLe, startsWithDigit f.displayName = true) ∧
      (∀ f ∈ (alphaGroup rs).insertionSort alphaLe, startsWithDigit f.displayName = false) ∧
      ((numGroup rs).insertionSort numLe).Perm (numGroup rs) ∧
      ((alphaGroup rs).insertionSort alphaLe).Perm (alphaGroup rs) ∧
      ((numGroup rs).insertionSort numLe).Pairwise
        (fun a b => leadingNum a.displayName ≤ leadingNum b.displayName) ∧
      ((alphaGroup rs).insertionSort alphaLe).Pairwise alphaLe ∧
      (∀ sub : List FileInfo, sub.Pairwise numLe → sub.Sublist (numGroup rs) →
          sub.Sublist ((numGroup rs).insertionSort numLe)) ∧
      (∀ sub : List FileInfo, sub.Pairwise alphaLe → sub.Sublist (alphaGroup rs) →
          sub.Sublist ((alphaGroup rs).insertionSort alphaLe))) ∧
    (classifyFiles exampleResources).map FileInfo.displayName
      = ["2_game", "10_game", "apple", "bishop"] := by
  constructor
  · intro rs
    refine ⟨rfl, ?_, ?_, List.perm_insertionSort numLe _, List.perm_insertionSort alphaLe _,
        ?_, List.sorted_insertionSort alphaLe _,
        fun sub h1 h2 => List.sublist_insertionSort h1 h2,
        fun sub h1 h2 => List.sublist_insertionSort h1 h2⟩
    · intro f hf
      exact mem_numGroup_digit ((List.mem_insertionSort _).mp hf)
    · intro f hf
      exact mem_alphaGroup_not_digit ((List.mem_insertionSort _).mp hf)
    · refine (List.sorted_insertionSort numLe (numGroup rs)).imp ?_
      intro a b hab
      unfold numLe numCompare at hab
      omega
  · decide

/-- Witness for C2 at the spec's example list: a concrete record of the
sorted numeric subgroup indeed starts with a digit, and a concrete
one-element subsequence survives sorting. -/
theorem C2_classifier_order_witness :
    startsWithDigit (toFileInfo ⟨"folderA/10_game", "u1"⟩).displayName = true ∧
    [toFileInfo ⟨"folderA/2_game", "u2"⟩].Sublist
        ((numGroup exampleResources).insertionSort numLe) :=
  ⟨(C2_classifier_order.1 exampleResources).2.1 (toFileInfo ⟨"folderA/10_game", "u1"⟩)
      (by decide),
   (C2_classifier_order.1 exampleResources).2.2.2.2.2.2.2.1
      [toFileInfo ⟨"folderA/2_game", "u2"⟩] (by decide) (by decide)⟩

theorem toFileInfo_toResource (r : Resource) :
    toFileInfo (FileInfo.toResource (toFileInfo r)) = toFileInfo r := rfl

theorem classifyFiles_eq (resources : List Resource) :
    classifyFiles resources
      = ((resources.map toFileInfo).filter
            (fun f => startsWithDigit f.displayName)).insertionSort numLe
        ++ ((resources.map toFileInfo).filter
            (fun f => !startsWithDigit f.displayName)).insertionSort alphaLe := rfl

theorem map_id_of_mem {α : Type} {g : α → α} :
    ∀ {l : List α}, (∀ a ∈ l, g a = a) → l.map g = l
  | [], _ => rfl
  | x :: xs, h => by
    rw [List.map_cons, h x (List.mem_cons_self x xs),
      map_id_of_mem (fun a ha => h a (List.mem_cons_of_mem x ha))]

theorem mem_group_exists_resource {rs : List Resource} {q : FileInfo → Bool} {f : FileInfo}
    (h : f ∈ (rs.map toFileInfo).filter q) : ∃ r ∈ rs, f = toFileInfo r := by
  have hm := (List.mem_filter.mp h).1
  obtain ⟨r, hr, hfr⟩ := List.mem_map.mp hm
  exact ⟨r, hr, hfr.symm⟩

/-- C7: the classifier and sorter is idempotent: feeding its own output
back (reading each output record as a descriptor again) returns the same
list in the same order. -/
theorem C7_classifier_idempotent (rs : List Resource) :
    classifyFiles ((classifyFiles rs).map FileInfo.toResource) = classifyFiles rs := by
  have hNs : ∀ f ∈ (numGroup rs).insertionSort numLe, f ∈ numGroup rs :=
    fun f hf => (List.mem_insertionSort _).mp hf
  have hAs : ∀ f ∈ (alphaGroup rs).insertionSort alphaLe, f ∈ alphaGroup rs :=
    fun f hf => (List.mem_insertionSort _).mp hf
  have hout : classifyFiles rs
      = (numGroup rs).insertionSort numLe ++ (alphaGroup rs).insertionSort alphaLe := rfl
  have key : ∀ f ∈ classifyFiles rs, toFileInfo (FileInfo.toResource f) = f := by
    intro f hf
    rw [hout] at hf
    rcases List.mem_append.mp hf with h | h
    · obtain ⟨r, _, rfl⟩ := mem_group_exists_resource (hNs f h)
      exact toFileInfo_toResource r
    · obtain ⟨r, _, rfl⟩ := mem_group_exists_resource (hAs f h)
      exact toFileInfo_toResource r
  have hinfos : ((classifyFiles rs).map FileInfo.toResource).map toFileInfo
      = classifyFiles rs := by
    rw [List.map_map]
    exact map_id_of_mem key
  have hfilterN : (classifyFiles rs).filter (fun f => startsWithDigit f.displayName)
      = (numGroup rs).insertionSort numLe := by
    rw [hout, List.filter_append]
    rw [List.filter_eq_self.mpr (fun f hf => mem_numGroup_digit (hNs f hf))]
    rw [List.filter_eq_nil_iff.mpr
      (fun f hf => by simp [mem_alphaGroup_not_digit (hAs f hf)])]
    exact List.append_nil _
  have hfilterA : (classifyFiles rs).filter (fun f => !startsWithDigit f.displayName)
      = (alphaGroup rs).insertionSort alphaLe := by
    rw [hout, List.filter_append]
    rw [List.filter_eq_nil_iff.mpr
      (fun f hf => by simp [mem_numGroup_digit (hNs f hf)])]
    rw [List.filter_eq_self.mpr
      (fun f hf => by simp [mem_alphaGroup_not_digit (hAs f hf)])]
    exact List.nil_append _
  have hred := classifyFiles_eq ((classifyFiles rs).map FileInfo.toResource)
  rw [hinfos] at hred
  rw [hred, hfilterN, hfilterA,
    List.Sorted.insertionSort_eq (List.sorted_insertionSort numLe (numGroup rs)),
    List.Sorted.insertionSort_eq (List.sorted_insertionSort alphaLe (alphaGroup rs))]
  exact hout.symm

/-- C9: the prefetch path performs no charset validation: for the key
containing a space and punctuation the prefetch handler acknowledges it
and issues the upstream search with the key embedded verbatim in the
expression, while the main fetch path rejects the same key with the 400
outcome before any upstream call. -/
theorem C9_prefetch_no_validation :
    (prefetchHandler (some "bad key!") [] (fun _ => Upstream.failure) 0).1
      = PrefetchOutcome.ack ["bad key!"] ∧
    prefetchQueries (some "bad key!") [] 0 = ["folder:bad key! AND format:pgn"] ∧
    (fetchCategory (some "bad key!") [] 0 Upstream.failure id 0).1
      = FetchOutcome.invalidLevel ∧
    (fetchCategory (some "bad key!") [] 0 Upstream.failure id 0).1.status = 400 ∧
    fetchQueries (some "bad key!") [] 0 = [] := by
  refine ⟨by decide, by decide, by decide, by decide, by decide⟩

theorem prefetchLoop_lookup_of_ne (c0 : Cache) (ups : String → Upstream) (now : Nat)
    (k : String) :
    ∀ (l : List String) (c : Cache), k ∉ l →
      Cache.lookupEntry (l.foldl (prefetchStep c0 ups now) c) k = Cache.lookupEntry c k
  | [], _, _ => rfl
  | lv :: rest, c, h => by
    have hne : ¬ k = lv := fun hh => h (hh ▸ List.mem_cons_self lv rest)
    have hrest : k ∉ rest := fun hh => h (List.mem_cons_of_mem lv hh)
    rw [List.foldl_cons, prefetchLoop_lookup_of_ne c0 ups now k rest _ hrest]
    unfold prefetchStep
    by_cases hhas : Cache.has c0 lv now
    · rw [if_pos hhas]
    · rw [if_neg hhas]
      cases hu : ups lv with
      | ok rs => exact Cache.lookupEntry_set_ne c lv k _ now hne
      | failure => rfl
      | malformed => rfl

theorem prefetchLoop_lookup_of_has (c0 : Cache) (ups : String → Upstream) (now : Nat)
    (k : String) (hk : Cache.has c0 k now = true) :
    ∀ (l : List String) (c : Cache),
      Cache.lookupEntry (l.foldl (prefetchStep c0 ups now) c) k = Cache.lookupEntry c k
  | [], _ => rfl
  | lv :: rest, c => by
    rw [List.foldl_cons, prefetchLoop_lookup_of_has c0 ups now k hk rest _]
    unfold prefetchStep
    by_cases hhas : Cache.has c0 lv now
    · rw [if_pos hhas]
    · rw [if_neg hhas]
      have hne : ¬ k = lv := by
        intro hh
        rw [hh] at hk
        exact hhas hk
      cases hu : ups lv with
      | ok rs => exact Cache.lookupEntry_set_ne c lv k _ now hne
      | failure => rfl
      | malformed => rfl

theorem prefetchLoop_lookup_of_fail (c0 : Cache) (ups : String → Upstream) (now : Nat)
    (k : String) (hf : ups k = Upstream.failure ∨ ups k = Upstream.malformed) :
    ∀ (l : List String) (c : Cache),
      Cache.lookupEntry (l.foldl (prefetchStep c0 ups now) c) k = Cache.lookupEntry c k
  | [], _ => rfl
  | lv :: rest, c => by
    rw [List.foldl_cons, prefetchLoop_lookup_of_fail c0 ups now k hf rest _]
    unfold prefetchStep
    by_cases hhas : Cache.has c0 lv now
    · rw [if_pos hhas]
    · rw [if_neg hhas]
      by_cases hkl : k = lv
      · subst hkl
        rcases hf with h | h <;> rw [h]
      · cases hu : ups lv with
        | ok rs => exact Cache.lookupEntry_set_ne c lv k _ now hkl
        | failure => rfl
        | malformed => rfl

theorem prefetchLoop_lookup_of_ok (c0 : Cache) (ups : String → Upstream) (now : Nat)
    (k : String) (rs : List Resource) (hnot : Cache.has c0 k now = false)
    (hok : ups k = Upstream.ok rs) :
    ∀ (l : List String) (c : Cache),
      (k ∈ l ∨ Cache.lookupEntry c k = some ⟨classifyFiles rs, now + ttlMs⟩) →
      Cache.lookupEntry (l.foldl (prefetchStep c0 ups now) c) k
        = some ⟨classifyFiles rs, now + ttlMs⟩
  | [], _, h => by
    rcases h with h | h
    · exact absurd h (List.not_mem_nil k)
    · exact h
  | lv :: rest, c, h => by
    rw [List.foldl_cons]
    apply prefetchLoop_lookup_of_ok c0 ups now k rs hnot hok rest
    by_cases hkl : k = lv
    · subst hkl
      right
      unfold prefetchStep
      rw [if_neg (by rw [hnot]; exact Bool.false_ne_true), hok]
      exact Cache.lookupEntry_set_self c k (classifyFiles rs) now
    · rcases h with h | h
      · rcases List.mem_cons.mp h with h1 | h1
        · exact absurd h1 hkl
        · exact Or.inl h1
      · right
        unfold prefetchStep
        by_cases hhas : Cache.has c0 lv now
        · rw [if_pos hhas]
          exact h
        · rw [if_neg hhas]
          cases hu : ups lv with
          | ok rs2 =>
            rw [Cache.lookupEntry_set_ne c lv k _ now hkl]
            exact h
          | failure => exact h
          | malformed => exact h

theorem prefetchHandler_some {s : String} (hs : ¬ s = "") (c : Cache)
    (ups : String → Upstream) (now : Nat) :
    prefetchHandler (some s) c ups now
      = (PrefetchOutcome.ack ((jsSplit ',' s).take 5),
         prefetchBackground ((jsSplit ',' s).take 5) c ups now) := by
  simp only [prefetchHandler, if_neg hs]

theorem searchExpression_inj {a b : String} (h : searchExpression a = searchExpression b) :
    a = b := by
  unfold searchExpression at h
  have h2 : ("folder:" ++ a ++ " AND format:pgn").data
      = ("folder:" ++ b ++ " AND format:pgn").data := by rw [h]
  simp only [String.data_append] at h2
  exact String.ext (List.append_cancel_left (List.append_cancel_right h2))

/-- C6: the prefetch handler processes at most the first five
comma-separated keys; the acknowledgment lists exactly those keys and is
independent of every upstream result (it is computed before any
fetching); keys outside the first five are untouched; a key already
present in the cache keeps its entry untouched and no query is issued for
it; a key whose fetch fails keeps its entry untouched (the failure is
swallowed, with no stale-serving step); and a non-cached key among the
first five whose fetch succeeds gets exactly the classified result with a
fresh TTL. -/
theorem C6_prefetch_behaviour (s : String) (hs : ¬ s = "") (c : Cache)
    (ups ups2 : String → Upstream) (now : Nat) :
    (prefetchHandler (some s) c ups now).1
        = PrefetchOutcome.ack ((jsSplit ',' s).take 5) ∧
    (prefetchHandler (some s) c ups now).1 = (prefetchHandler (some s) c ups2 now).1 ∧
    (∀ k, k ∉ (jsSplit ',' s).take 5 →
        Cache.lookupEntry (prefetchHandler (some s) c ups now).2 k
          = Cache.lookupEntry c k) ∧
    (∀ k, Cache.has c k now = true →
        Cache.lookupEntry (prefetchHandler (some s) c ups now).2 k
          = Cache.lookupEntry c k) ∧
    (∀ k, ups k = Upstream.failure ∨ ups k = Upstream.malformed →
        Cache.lookupEntry (prefetchHandler (some s) c ups now).2 k
          = Cache.lookupEntry c k) ∧
    (∀ k rs, k ∈ (jsSplit ',' s).take 5 → Cache.has c k now = false →
        ups k = Upstream.ok rs →
        Cache.lookupEntry (prefetchHandler (some s) c ups now).2 k
          = some ⟨classifyFiles rs, now + ttlMs⟩) ∧
    prefetchQueries (some s) c now
      = (((jsSplit ',' s).take 5).filter (fun lv => !(Cache.has c lv now))).map
          searchExpression ∧
    (∀ k, Cache.has c k now = true →
        searchExpression k ∉ prefetchQueries (some s) c now) := by
  rw [prefetchHandler_some hs c ups now, prefetchHandler_some hs c ups2 now]
  have hq : prefetchQueries (some s) c now
      = (((jsSplit ',' s).take 5).filter (fun lv => !(Cache.has c lv now))).map
          searchExpression := by
    simp only [prefetchQueries, if_neg hs]
  refine ⟨rfl, rfl, ?_, ?_, ?_, ?_, hq, ?_⟩
  · intro k hk
    exact prefetchLoop_lookup_of_ne c ups now k _ c hk
  · intro k hk
    exact prefetchLoop_lookup_of_has c ups now k hk _ c
  · intro k hk
    exact prefetchLoop_lookup_of_fail c ups now k hk _ c
  · intro k rs hmem hnot hok
    exact prefetchLoop_lookup_of_ok c ups now k rs hnot hok _ c (Or.inl hmem)
  · intro k hk hmem
    rw [hq] at hmem
    obtain ⟨lv, hlv, hexpr⟩ := List.mem_map.mp hmem
    have hkl : lv = k := searchExpression_inj hexpr
    subst hkl
    have := (List.mem_filter.mp hlv).2
    rw [hk] at this
    cases this

/-- Witness for C6: two requested keys, one already cached and skipped,
one fetched successfully and stored with a fresh TTL. -/
theorem C6_prefetch_behaviour_witness :
    Cache.lookupEntry
        (prefetchHandler (some "a,b") (Cache.set [] "b" [sampleFile] 0)
          (fun _ => Upstream.ok []) 0).2 "b"
      = Cache.lookupEntry (Cache.set [] "b" [sampleFile] 0) "b" ∧
    Cache.lookupEntry
        (prefetchHandler (some "a,b") (Cache.set [] "b" [sampleFile] 0)
          (fun _ => Upstream.ok []) 0).2 "a"
      = some ⟨classifyFiles [], ttlMs⟩ :=
  ⟨(C6_prefetch_behaviour "a,b" (by decide) (Cache.set [] "b" [sampleFile] 0)
      (fun _ => Upstream.ok []) (fun _ => Upstream.failure) 0).2.2.2.1 "b" (by decide),
   (C6_prefetch_behaviour "a,b" (by decide) (Cache.set [] "b" [sampleFile] 0)
      (fun _ => Upstream.ok []) (fun _ => Upstream.failure) 0).2.2.2.2.2.1 "a" []
      (by decide) (by decide) rfl⟩
